import Mathlib

/-!
Shallow embedding of the data-access layer of `dormdigest-backend`
(`src/db/db_operations.py`), together with proofs about its operations.

The database session is modelled as an explicit state (`DB`) holding the rows
of each table as lists; SQLAlchemy queries become list operations
(`List.find?`, `List.filter`), `order_by` becomes `List.insertionSort`, and
commits that can fail are driven by explicit outcome oracles.
-/

/-- `MAX_COMMIT_RETRIES = 10` from `db_operations.py`. -/
def MAX_COMMIT_RETRIES : Nat := 10

/-- Outcome of one `session.add(...)`/`session.commit()` attempt inside
`add_to_db`: success, an `exc.IntegrityError` (uniqueness/integrity
conflict), or any other exception. -/
inductive CommitResult
  | ok
  | integrityError
  | otherError
deriving DecidableEq, Repr

/-- Observable trace of one `add_to_db` call: the boolean `committed` that the
function returns, the number of try-body attempts executed, the number of
`session.rollback()` calls, and the number of `rollbackfunc()` invocations. -/
structure AddTrace where
  committed : Bool
  attempts : Nat
  rollbacks : Nat
  callbackCalls : Nat
deriving DecidableEq, Repr

/-- Result of `add_to_db`: either the function returns its boolean (wrapped in
the trace), or an uncaught exception propagates out of the retry loop. -/
inductive AddOutcome
  | returned (t : AddTrace)
  | raised (t : AddTrace)
deriving DecidableEq, Repr

/-- The `while (not committed and retry > 0)` loop of `add_to_db`, with
`retry` as fuel.  `outcome n` is the result of the `n`-th attempt's
`session.add`/`session.commit` (indexed so that state changes made by the
rollback callback or by concurrent writers are reflected in later attempts).
`hasRollbackfunc` records whether a `rollbackfunc` was supplied.

Source correspondence: on `IntegrityError` the session is rolled back; with a
callback, the callback runs and `retry -= 1`; without one, `retry = 0` then
`retry -= 1` makes the loop condition false immediately, so the call returns
`False` after that single conflict.  On success `committed = True` ends the
loop.  Any other exception is not caught and escapes the loop (`raised`). -/
def add_to_db_loop (outcome : Nat → CommitResult) (hasRollbackfunc : Bool) :
    Nat → Nat → Nat → Nat → AddOutcome
  | 0, attempts, rollbacks, cbs => AddOutcome.returned ⟨false, attempts, rollbacks, cbs⟩
  | retry + 1, attempts, rollbacks, cbs =>
    match outcome attempts with
    | CommitResult.ok => AddOutcome.returned ⟨true, attempts + 1, rollbacks, cbs⟩
    | CommitResult.integrityError =>
      if hasRollbackfunc then
        add_to_db_loop outcome hasRollbackfunc retry (attempts + 1) (rollbacks + 1) (cbs + 1)
      else
        AddOutcome.returned ⟨false, attempts + 1, rollbacks + 1, cbs⟩
    | CommitResult.otherError => AddOutcome.raised ⟨false, attempts + 1, rollbacks, cbs⟩

/-- `add_to_db` from `db_operations.py`: run the retry loop with
`retry = MAX_COMMIT_RETRIES` and all counters at zero. -/
def add_to_db (outcome : Nat → CommitResult) (hasRollbackfunc : Bool) : AddOutcome :=
  add_to_db_loop outcome hasRollbackfunc MAX_COMMIT_RETRIES 0 0 0

theorem add_to_db_loop_all_conflict (outcome : Nat → CommitResult)
    (h : ∀ n, outcome n = CommitResult.integrityError) :
    ∀ retry attempts rollbacks cbs,
      add_to_db_loop outcome true retry attempts rollbacks cbs =
        AddOutcome.returned ⟨false, attempts + retry, rollbacks + retry, cbs + retry⟩ := by
  intro retry
  induction retry with
  | zero => intro a r c; simp [add_to_db_loop]
  | succ n ih =>
    intro a r c
    rw [add_to_db_loop, h a]
    simp only [if_pos rfl, ih]
    simp [AddTrace.mk.injEq]
    omega

theorem add_to_db_loop_attempts_le (outcome : Nat → CommitResult) (hasCb : Bool) :
    ∀ retry attempts rollbacks cbs t,
      (add_to_db_loop outcome hasCb retry attempts rollbacks cbs = AddOutcome.returned t ∨
       add_to_db_loop outcome hasCb retry attempts rollbacks cbs = AddOutcome.raised t) →
      t.attempts ≤ attempts + retry := by
  intro retry
  induction retry with
  | zero =>
    intro a r c t h
    rcases h with h | h
    · rw [add_to_db_loop] at h
      injection h with h
      subst h
      simp
    · rw [add_to_db_loop] at h
      exact absurd h (by simp)
  | succ n ih =>
    intro a r c t h
    rw [add_to_db_loop] at h
    cases hout : outcome a <;> rw [hout] at h
    · rcases h with h | h
      · injection h with h
        subst h
        simp
      · exact absurd h (by simp)
    · by_cases hcb : hasCb = true
      · rw [if_pos hcb] at h
        have := ih (a + 1) (r + 1) (c + 1) t h
        omega
      · rw [if_neg hcb] at h
        rcases h with h | h
        · injection h with h
          subst h
          simp
        · exact absurd h (by simp)
    · rcases h with h | h
      · exact absurd h (by simp)
      · injection h with h
        subst h
        simp

theorem add_to_db_loop_raises (outcome : Nat → CommitResult) :
    ∀ n retry attempts rollbacks cbs, n < retry →
      (∀ k, k < n → outcome (attempts + k) = CommitResult.integrityError) →
      outcome (attempts + n) = CommitResult.otherError →
      add_to_db_loop outcome true retry attempts rollbacks cbs =
        AddOutcome.raised ⟨false, attempts + n + 1, rollbacks + n, cbs + n⟩ := by
  intro n
  induction n with
  | zero =>
    intro retry a r c hlt _ hoth
    obtain ⟨retry', rfl⟩ : ∃ m, retry = m + 1 := ⟨retry - 1, by omega⟩
    rw [add_to_db_loop]
    rw [Nat.add_zero] at hoth
    rw [hoth]
    rfl
  | succ m ih =>
    intro retry a r c hlt hpre hoth
    obtain ⟨retry', rfl⟩ : ∃ k, retry = k + 1 := ⟨retry - 1, by omega⟩
    rw [add_to_db_loop]
    have h0 : outcome a = CommitResult.integrityError := by
      have := hpre 0 (by omega)
      simpa using this
    rw [h0]
    simp only [if_pos rfl]
    have hrec := ih retry' (a + 1) (r + 1) (c + 1) (by omega)
      (fun k hk => by
        have := hpre (k + 1) (by omega)
        have heq : a + (k + 1) = a + 1 + k := by omega
        rwa [heq] at this)
      (by
        have heq : a + (m + 1) = a + 1 + m := by omega
        rwa [heq] at hoth)
    rw [hrec]
    simp [AddTrace.mk.injEq]
    omega

/-- C2: `add_to_db` returns a boolean; a uniqueness/integrity conflict with no
`rollbackfunc` rolls back once and returns false immediately (one attempt, no
retry); with a `rollbackfunc` it rolls back, calls the callback and retries,
making at most `MAX_COMMIT_RETRIES = 10` attempts in total, and returns false
when every attempt conflicts. -/
theorem add_to_db_retry_policy (outcome : Nat → CommitResult) :
    (outcome 0 = CommitResult.integrityError →
      add_to_db outcome false = AddOutcome.returned ⟨false, 1, 1, 0⟩) ∧
    ((∀ n, outcome n = CommitResult.integrityError) →
      add_to_db outcome true =
        AddOutcome.returned
          ⟨false, MAX_COMMIT_RETRIES, MAX_COMMIT_RETRIES, MAX_COMMIT_RETRIES⟩) ∧
    (∀ hasCb t,
      (add_to_db outcome hasCb = AddOutcome.returned t ∨
       add_to_db outcome hasCb = AddOutcome.raised t) →
      t.attempts ≤ MAX_COMMIT_RETRIES) := by
  refine ⟨?_, ?_, ?_⟩
  · intro h
    rw [add_to_db, MAX_COMMIT_RETRIES, add_to_db_loop, h]
    simp
  · intro h
    rw [add_to_db, add_to_db_loop_all_conflict outcome h]
    simp
  · intro hasCb t h
    have := add_to_db_loop_attempts_le outcome hasCb MAX_COMMIT_RETRIES 0 0 0 t h
    omega

/-- Witness for `add_to_db_retry_policy` at the all-conflicts oracle. -/
theorem add_to_db_retry_policy_witness :
    add_to_db (fun _ => CommitResult.integrityError) false =
      AddOutcome.returned ⟨false, 1, 1, 0⟩ ∧
    add_to_db (fun _ => CommitResult.integrityError) true =
      AddOutcome.returned ⟨false, 10, 10, 10⟩ :=
  ⟨(add_to_db_retry_policy (fun _ => CommitResult.integrityError)).1 rfl,
   (add_to_db_retry_policy (fun _ => CommitResult.integrityError)).2.1 (fun _ => rfl)⟩

/-- C8: an error that is not an integrity conflict is not caught by
`add_to_db`: it propagates out of the retry loop at the attempt where it
occurs (no further attempt, no rollback, no callback call for it), with or
without a `rollbackfunc`. -/
theorem add_to_db_other_error_propagates (outcome : Nat → CommitResult) :
    (∀ hasCb, outcome 0 = CommitResult.otherError →
      add_to_db outcome hasCb = AddOutcome.raised ⟨false, 1, 0, 0⟩) ∧
    (∀ n, n < MAX_COMMIT_RETRIES →
      (∀ k, k < n → outcome k = CommitResult.integrityError) →
      outcome n = CommitResult.otherError →
      add_to_db outcome true = AddOutcome.raised ⟨false, n + 1, n, n⟩) := by
  constructor
  · intro hasCb h
    rw [add_to_db, MAX_COMMIT_RETRIES, add_to_db_loop, h]
  · intro n hn hpre hoth
    rw [add_to_db]
    have := add_to_db_loop_raises outcome n MAX_COMMIT_RETRIES 0 0 0 hn
      (fun k hk => by simpa using hpre k hk) (by simpa using hoth)
    simpa using this

/-- Witness for `add_to_db_other_error_propagates`: an oracle that conflicts
twice and then raises a non-integrity error. -/
theorem add_to_db_other_error_propagates_witness :
    add_to_db (fun _ => CommitResult.otherError) false =
      AddOutcome.raised ⟨false, 1, 0, 0⟩ ∧
    add_to_db (fun n => if n < 2 then CommitResult.integrityError else CommitResult.otherError)
        true =
      AddOutcome.raised ⟨false, 3, 2, 2⟩ :=
  ⟨(add_to_db_other_error_propagates (fun _ => CommitResult.otherError)).1 false rfl,
   (add_to_db_other_error_propagates
      (fun n => if n < 2 then CommitResult.integrityError else CommitResult.otherError)).2
     2 (by decide) (fun k hk => by interval_cases k <;> rfl) rfl⟩

/-! ### Data model

Row types mirroring `db/schema.py` as used by `db_operations.py`; the schema
module itself is not part of the sources, so field sets follow the operations
and the spec's data-model section. Machine integers of the store are modelled
as `Nat`; nullable columns as `Option`. -/

/-- A calendar date (`datetime.date`). -/
structure Date where
  year : Nat
  month : Nat
  day : Nat
deriving DecidableEq, Repr

/-- A `User` row: id, unique email, privilege level. -/
structure User where
  id : Nat
  email : String
  user_privilege : Nat
deriving DecidableEq, Repr

/-- An `Event` row, with the fields read or written by `db_operations.py`.
Times are minutes-of-day as `Nat`. -/
structure Event where
  id : Nat
  title : String
  user_id : Nat
  description : String
  description_html : Option String
  club_id : Option Nat
  location : Option String
  start_date : Option Date
  end_date : Option Date
  start_time : Option Nat
  end_time : Option Nat
  cta_link : Option String
deriving DecidableEq, Repr

/-- A `ClubMembership` row: (user, club) pair with a member privilege. -/
structure ClubMembership where
  user_id : Nat
  club_id : Nat
  member_privilege : Nat
deriving DecidableEq, Repr

/-- An `EventTag` row: (event, tag enum value) pair. -/
structure EventTag where
  event_id : Nat
  tag : Nat
deriving DecidableEq, Repr

/-- The visible (committed) database state reachable through one session.
`next_user_id` models the store-generated autoincrement id for `User`. -/
structure DB where
  users : List User
  events : List Event
  memberships : List ClubMembership
  event_tags : List EventTag
  next_user_id : Nat
deriving DecidableEq, Repr

/-- Modelled from the spec: `db/schema.py` (enum `UserPrivilege`) is not under
`src/`; the spec lists privilege levels NORMAL and ADMIN and `add_user`
defaults the level to `0`, so ADMIN is the nonzero level. -/
def ADMIN_PRIVILEGE : Nat := 1

/-- Modelled from the spec: `db/schema.py` (enum `MemberPrivilege`) is not
under `src/`; the spec lists levels MEMBER and OFFICER and `add_club_member`
defaults the level to `0`, so OFFICER is the nonzero level. -/
def OFFICER_PRIVILEGE : Nat := 1

/-- Store-level well-formedness guaranteed by the schema: primary keys of
`User` and `Event` are unique, and club ids referenced by events are
store-generated, hence nonzero. -/
def DB.WF (db : DB) : Prop :=
  db.users.Pairwise (fun a b => a.id ≠ b.id) ∧
  db.events.Pairwise (fun a b => a.id ≠ b.id) ∧
  ∀ e ∈ db.events, e.club_id ≠ some 0

/-- `has_edit_permission` from `db_operations.py`.  `query(...).first()`
becomes `List.find?`; the Python truthiness test `if not event.club_id`
is false for `None` and for club id `0`. -/
def has_edit_permission (db : DB) (user_id event_id : Nat) : Bool :=
  match db.users.find? (fun u => u.id == user_id) with
  | none => false
  | some user =>
    if user.user_privilege == ADMIN_PRIVILEGE then true
    else
      match db.events.find? (fun e => e.id == event_id) with
      | none => false
      | some event =>
        if event.user_id == user_id then true
        else
          match event.club_id with
          | none => false
          | some cid =>
            if cid == 0 then false
            else
              (db.memberships.find? (fun m =>
                m.user_id == user_id && m.club_id == cid &&
                m.member_privilege == OFFICER_PRIVILEGE)).isSome

theorem find?_eq_some_of_pairwise {α : Type} {p : α → Bool} :
    ∀ {l : List α}, l.Pairwise (fun a b => ¬(p a = true ∧ p b = true)) →
      ∀ {x}, x ∈ l → p x = true → l.find? p = some x := by
  intro l
  induction l with
  | nil => intro _ x hx; simp at hx
  | cons y ys ih =>
    intro hp x hx hpx
    rcases List.mem_cons.mp hx with rfl | hx
    · exact List.find?_cons_of_pos ys hpx
    · have hpy : p y = false := by
        by_contra h
        have hy : p y = true := by simpa using h
        exact (List.pairwise_cons.mp hp).1 x hx ⟨hy, hpx⟩
      rw [List.find?_cons_of_neg ys (by simp [hpy])]
      exact ih (List.pairwise_cons.mp hp).2 hx hpx

theorem pairwise_beq_key {α : Type} (key : α → Nat) {l : List α}
    (h : l.Pairwise (fun a b => key a ≠ key b)) (i : Nat) :
    l.Pairwise (fun a b => ¬((key a == i) = true ∧ (key b == i) = true)) :=
  h.imp (by
    intro a b hab hcon
    have h1 : key a = i := by simpa using hcon.1
    have h2 : key b = i := by simpa using hcon.2
    exact hab (h1.trans h2.symm))

/-- C1: for every well-formed database state, `has_edit_permission` returns
true iff the user exists and either is an ADMIN, or the event exists and is
owned by the user, or the event exists, has an associated club, and the user
has an OFFICER membership for that club; an absent user or absent event
yields false, and an ADMIN gets true even when the event does not exist
(the admin check precedes the event lookup). -/
theorem has_edit_permission_spec (db : DB) (hwf : db.WF) (user_id event_id : Nat) :
    has_edit_permission db user_id event_id = true ↔
      ∃ u ∈ db.users, u.id = user_id ∧
        (u.user_privilege = ADMIN_PRIVILEGE ∨
          ∃ e ∈ db.events, e.id = event_id ∧
            (e.user_id = user_id ∨
              ∃ cid, e.club_id = some cid ∧
                ∃ m ∈ db.memberships, m.user_id = user_id ∧ m.club_id = cid ∧
                  m.member_privilege = OFFICER_PRIVILEGE)) := by
  obtain ⟨huniq, heuniq, hclub⟩ := hwf
  cases hfu : db.users.find? (fun u => u.id == user_id) with
  | none =>
    have hval : has_edit_permission db user_id event_id = false := by
      unfold has_edit_permission
      rw [hfu]
    rw [hval]
    simp only [Bool.false_eq_true, false_iff]
    rintro ⟨u, hu, hid, -⟩
    have := List.find?_eq_none.mp hfu u hu
    simp [hid] at this
  | some user =>
    have huser_mem : user ∈ db.users := List.mem_of_find?_eq_some hfu
    have huser_id : user.id = user_id := by simpa using List.find?_some hfu
    have huser_uniq : ∀ u ∈ db.users, u.id = user_id → u = user := by
      intro u hu hid
      have := find?_eq_some_of_pairwise (pairwise_beq_key (fun a => a.id) huniq user_id)
        hu (by simpa using hid)
      rw [hfu] at this
      exact (Option.some.inj this).symm
    by_cases hadmin : user.user_privilege = ADMIN_PRIVILEGE
    · have hval : has_edit_permission db user_id event_id = true := by
        unfold has_edit_permission
        rw [hfu]
        simp [hadmin]
      rw [hval]
      simp only [true_iff]
      exact ⟨user, huser_mem, huser_id, Or.inl hadmin⟩
    · cases hfe : db.events.find? (fun e => e.id == event_id) with
      | none =>
        have hval : has_edit_permission db user_id event_id = false := by
          unfold has_edit_permission
          rw [hfu]
          simp [hadmin, hfe]
        rw [hval]
        simp only [Bool.false_eq_true, false_iff]
        rintro ⟨u, hu, hid, hrest⟩
        have hueq := huser_uniq u hu hid
        subst hueq
        rcases hrest with h | ⟨e, hemem, heid, -⟩
        · exact hadmin h
        · have := List.find?_eq_none.mp hfe e hemem
          simp [heid] at this
      | some event =>
        have hev_mem : event ∈ db.events := List.mem_of_find?_eq_some hfe
        have hev_id : event.id = event_id := by simpa using List.find?_some hfe
        have hev_uniq : ∀ e ∈ db.events, e.id = event_id → e = event := by
          intro e hemem hid
          have := find?_eq_some_of_pairwise (pairwise_beq_key (fun a => a.id) heuniq event_id)
            hemem (by simpa using hid)
          rw [hfe] at this
          exact (Option.some.inj this).symm
        by_cases howner : event.user_id = user_id
        · have hval : has_edit_permission db user_id event_id = true := by
            unfold has_edit_permission
            rw [hfu]
            simp [hadmin, hfe, howner]
          rw [hval]
          simp only [true_iff]
          exact ⟨user, huser_mem, huser_id,
            Or.inr ⟨event, hev_mem, hev_id, Or.inl howner⟩⟩
        · cases hcid : event.club_id with
          | none =>
            have hval : has_edit_permission db user_id event_id = false := by
              unfold has_edit_permission
              rw [hfu]
              simp [hadmin, hfe, howner, hcid]
            rw [hval]
            simp only [Bool.false_eq_true, false_iff]
            rintro ⟨u, hu, hid, hrest⟩
            have hueq := huser_uniq u hu hid
            subst hueq
            rcases hrest with h | ⟨e, hemem, heid, hrest2⟩
            · exact hadmin h
            · have he' := hev_uniq e hemem heid
              subst he'
              rcases hrest2 with h | ⟨cid, hsome, -⟩
              · exact howner h
              · rw [hcid] at hsome
                simp at hsome
          | some cid =>
            have hcid0 : cid ≠ 0 := by
              intro h0
              exact hclub event hev_mem (by rw [hcid, h0])
            have hval : has_edit_permission db user_id event_id =
                (db.memberships.find? (fun m =>
                  m.user_id == user_id && m.club_id == cid &&
                  m.member_privilege == OFFICER_PRIVILEGE)).isSome := by
              unfold has_edit_permission
              rw [hfu]
              simp [hadmin, hfe, howner, hcid, hcid0]
            rw [hval]
            constructor
            · intro h
              obtain ⟨m, hmmem, hp⟩ := List.find?_isSome.mp h
              have hp' : (m.user_id = user_id ∧ m.club_id = cid) ∧
                  m.member_privilege = OFFICER_PRIVILEGE := by
                simpa using hp
              exact ⟨user, huser_mem, huser_id,
                Or.inr ⟨event, hev_mem, hev_id,
                  Or.inr ⟨cid, hcid, m, hmmem, hp'.1.1, hp'.1.2, hp'.2⟩⟩⟩
            · rintro ⟨u, hu, hid, hrest⟩
              have hueq := huser_uniq u hu hid
              subst hueq
              rcases hrest with h | ⟨e, hemem, heid, hrest2⟩
              · exact absurd h hadmin
              · have he' := hev_uniq e hemem heid
                subst he'
                rcases hrest2 with h | ⟨cid2, hsome, m, hmmem, hm1, hm2, hm3⟩
                · exact absurd h howner
                · rw [hcid] at hsome
                  have hcc : cid = cid2 := by injection hsome
                  subst hcc
                  exact List.find?_isSome.mpr ⟨m, hmmem, by simp [hm1, hm2, hm3]⟩

/-- Witness for `has_edit_permission_spec`: an ADMIN user may edit an event
that does not even exist, and the permission formula agrees. -/
theorem has_edit_permission_spec_witness :
    DB.WF ⟨[⟨1, "admin@example.com", 1⟩], [], [], [], 2⟩ ∧
    (has_edit_permission ⟨[⟨1, "admin@example.com", 1⟩], [], [], [], 2⟩ 1 5 = true ↔
      ∃ u ∈ [(⟨1, "admin@example.com", 1⟩ : User)], u.id = 1 ∧
        (u.user_privilege = ADMIN_PRIVILEGE ∨
          ∃ e ∈ ([] : List Event), e.id = 5 ∧
            (e.user_id = 1 ∨
              ∃ cid, e.club_id = some cid ∧
                ∃ m ∈ ([] : List ClubMembership), m.user_id = 1 ∧ m.club_id = cid ∧
                  m.member_privilege = OFFICER_PRIVILEGE))) :=
  ⟨⟨by simp, by simp, by simp⟩,
    has_edit_permission_spec ⟨[⟨1, "admin@example.com", 1⟩], [], [], [], 2⟩
      ⟨by simp, by simp, by simp⟩ 1 5⟩

/-! ### Add operations -/

/-- `updateFirst p f l` applies `f` to the first element satisfying `p` — the
ORM pattern of mutating the object returned by `query(...).first()` and
committing. -/
def updateFirst {α : Type} (p : α → Bool) (f : α → α) : List α → List α
  | [] => []
  | x :: xs => if p x then f x :: xs else x :: updateFirst p f xs

/-- `add_event_tags` from `db_operations.py`: delete every `EventTag` row of
the event, then insert one row per supplied tag value and commit. -/
def add_event_tags (db : DB) (event_id : Nat) (event_tags : List Nat) : DB :=
  { db with event_tags :=
      db.event_tags.filter (fun t => !(t.event_id == event_id)) ++
        event_tags.map (fun tag => ⟨event_id, tag⟩) }

/-- C3: after `add_event_tags session event_id event_tags` returns, the
`EventTag` rows linked to `event_id` are exactly the supplied tags — for
every prior tag state of the event. -/
theorem add_event_tags_replaces (db : DB) (event_id : Nat) (event_tags : List Nat) :
    ∀ t : Nat,
      (⟨event_id, t⟩ : EventTag) ∈ (add_event_tags db event_id event_tags).event_tags ↔
        t ∈ event_tags := by
  intro t
  simp [add_event_tags, List.mem_filter, List.mem_append, List.mem_map,
    EventTag.mk.injEq]

theorem eq_of_filter_length_le_one {α : Type} {p : α → Bool} :
    ∀ {l : List α}, (l.filter p).length ≤ 1 →
      ∀ {a b}, a ∈ l → p a = true → b ∈ l → p b = true → a = b := by
  intro l
  induction l with
  | nil =>
    intro _ a b ha
    simp at ha
  | cons x xs ih =>
    intro hlen a b ha hpa hb hpb
    cases hpx : p x with
    | true =>
      simp only [List.filter_cons, hpx, if_pos, List.length_cons] at hlen
      have hempty : xs.filter p = [] := List.length_eq_zero.mp (by omega)
      have hax : a = x := by
        rcases List.mem_cons.mp ha with rfl | ha2
        · rfl
        · exfalso
          have hmem : a ∈ xs.filter p := List.mem_filter.mpr ⟨ha2, hpa⟩
          rw [hempty] at hmem
          simp at hmem
      have hbx : b = x := by
        rcases List.mem_cons.mp hb with rfl | hb2
        · rfl
        · exfalso
          have hmem : b ∈ xs.filter p := List.mem_filter.mpr ⟨hb2, hpb⟩
          rw [hempty] at hmem
          simp at hmem
      rw [hax, hbx]
    | false =>
      simp only [List.filter_cons, hpx, Bool.false_eq_true, if_neg] at hlen
      have ha2 : a ∈ xs := by
        rcases List.mem_cons.mp ha with rfl | h
        · rw [hpa] at hpx
          cases hpx
        · exact h
      have hb2 : b ∈ xs := by
        rcases List.mem_cons.mp hb with rfl | h
        · rw [hpb] at hpx
          cases hpx
        · exact h
      exact ih hlen ha2 hpa hb2 hpb

theorem find?_append_of_none {α : Type} {p : α → Bool} :
    ∀ {l₁ : List α}, l₁.find? p = none → ∀ l₂, (l₁ ++ l₂).find? p = l₂.find? p := by
  intro l₁
  induction l₁ with
  | nil => intro _ l₂; rfl
  | cons x xs ih =>
    intro h l₂
    have hx : p x = false := by
      cases hpx : p x
      · rfl
      · rw [List.find?_cons_of_pos _ hpx] at h
        cases h
    rw [List.find?_cons_of_neg _ (by simp [hx])] at h
    rw [List.cons_append, List.find?_cons_of_neg _ (by simp [hx])]
    exact ih h l₂

/-- `add_user` from `db_operations.py`: return the id of an existing user row
with this email, else insert a new row with the store-generated id and return
that id.  In this single-session state model the insert commit succeeds;
integrity conflicts only arise from concurrent writers, outside the state. -/
def add_user (db : DB) (email : String) (user_privilege : Nat) : Option Nat × DB :=
  match db.users.find? (fun u => u.email == email) with
  | some curr_user => (some curr_user.id, db)
  | none =>
    let new_user : User := ⟨db.next_user_id, email, user_privilege⟩
    (some new_user.id,
      { db with
          users := db.users ++ [new_user],
          next_user_id := db.next_user_id + 1 })

/-- C4: `add_user` is idempotent by email: with an existing row it returns
that row's id and changes nothing; with no row it inserts one with the fresh
id and returns it; a second call with the same email returns the same id and
changes nothing; afterwards exactly one row carries the email. -/
theorem add_user_idempotent (db : DB) (email : String) (priv : Nat)
    (huniq : (db.users.filter (fun u => u.email == email)).length ≤ 1) :
    ((∃ u ∈ db.users, u.email = email) →
      (add_user db email priv).2 = db ∧
      ∀ u ∈ db.users, u.email = email → (add_user db email priv).1 = some u.id) ∧
    ((∀ u ∈ db.users, u.email ≠ email) →
      (add_user db email priv).1 = some db.next_user_id ∧
      (add_user db email priv).2.users = db.users ++ [⟨db.next_user_id, email, priv⟩]) ∧
    (add_user db email priv).1.isSome = true ∧
    add_user (add_user db email priv).2 email priv = add_user db email priv ∧
    ((add_user db email priv).2.users.filter (fun u => u.email == email)).length = 1 := by
  cases hf : db.users.find? (fun u => u.email == email) with
  | some curr =>
    have hcurr_mem : curr ∈ db.users := List.mem_of_find?_eq_some hf
    have hcurr_email : curr.email = email := by simpa using List.find?_some hf
    have hval : add_user db email priv = (some curr.id, db) := by
      unfold add_user
      rw [hf]
    rw [hval]
    refine ⟨?_, ?_, rfl, ?_, ?_⟩
    · intro _
      refine ⟨rfl, ?_⟩
      intro u hu hue
      have : u = curr := eq_of_filter_length_le_one huniq hu (by simp [hue])
        hcurr_mem (by simp [hcurr_email])
      rw [this]
    · intro hno
      exact absurd hcurr_email (hno curr hcurr_mem)
    · exact hval
    · have hmem : curr ∈ db.users.filter (fun u => u.email == email) :=
        List.mem_filter.mpr ⟨hcurr_mem, by simp [hcurr_email]⟩
      have := List.length_pos_of_mem hmem
      show (db.users.filter (fun u => u.email == email)).length = 1
      omega
  | none =>
    have hno : ∀ u ∈ db.users, (u.email == email) ≠ true := List.find?_eq_none.mp hf
    have hval : add_user db email priv =
        (some db.next_user_id,
          { db with
              users := db.users ++ [⟨db.next_user_id, email, priv⟩],
              next_user_id := db.next_user_id + 1 }) := by
      unfold add_user
      rw [hf]
    rw [hval]
    have hfilter : db.users.filter (fun u => u.email == email) = [] := by
      rw [List.filter_eq_nil_iff]
      intro u hu
      exact hno u hu
    have hfind2 :
        (db.users ++ [(⟨db.next_user_id, email, priv⟩ : User)]).find?
            (fun u => u.email == email) = some ⟨db.next_user_id, email, priv⟩ := by
      rw [find?_append_of_none hf]
      simp [List.find?]
    refine ⟨?_, fun _ => ⟨rfl, rfl⟩, rfl, ?_, ?_⟩
    · rintro ⟨u, hu, hue⟩
      exact absurd (by simp [hue]) (hno u hu)
    · unfold add_user
      rw [hfind2]
    · rw [List.filter_append, hfilter]
      simp

/-- Witness for `add_user_idempotent` on an empty user table. -/
theorem add_user_idempotent_witness :
    ((⟨[], [], [], [], 1⟩ : DB).users.filter
        (fun u => u.email == "a@example.com")).length ≤ 1 ∧
    (add_user ⟨[], [], [], [], 1⟩ "a@example.com" 0).1 = some 1 ∧
    add_user (add_user ⟨[], [], [], [], 1⟩ "a@example.com" 0).2 "a@example.com" 0 =
      add_user ⟨[], [], [], [], 1⟩ "a@example.com" 0 ∧
    ((add_user ⟨[], [], [], [], 1⟩ "a@example.com" 0).2.users.filter
        (fun u => u.email == "a@example.com")).length = 1 :=
  ⟨by simp,
   ((add_user_idempotent ⟨[], [], [], [], 1⟩ "a@example.com" 0 (by simp)).2.1
      (by simp)).1,
   (add_user_idempotent ⟨[], [], [], [], 1⟩ "a@example.com" 0 (by simp)).2.2.2.1,
   (add_user_idempotent ⟨[], [], [], [], 1⟩ "a@example.com" 0 (by simp)).2.2.2.2⟩

theorem updateFirst_find? {α : Type} {p : α → Bool} {f : α → α}
    (hf : ∀ a, p a = true → p (f a) = true) :
    ∀ l : List α, (updateFirst p f l).find? p = (l.find? p).map f := by
  intro l
  induction l with
  | nil => rfl
  | cons x xs ih =>
    cases hpx : p x
    · rw [updateFirst, if_neg (by simp [hpx])]
      rw [List.find?_cons_of_neg _ (by simp [hpx]), List.find?_cons_of_neg _ (by simp [hpx])]
      exact ih
    · rw [updateFirst, if_pos hpx]
      rw [List.find?_cons_of_pos _ (hf x hpx), List.find?_cons_of_pos _ hpx]
      rfl

theorem updateFirst_filter_length {α : Type} {p : α → Bool} {f : α → α}
    (hf : ∀ a, p a = true → p (f a) = true) :
    ∀ l : List α, ((updateFirst p f l).filter p).length = (l.filter p).length := by
  intro l
  induction l with
  | nil => rfl
  | cons x xs ih =>
    cases hpx : p x
    · rw [updateFirst, if_neg (by simp [hpx])]
      simp only [List.filter_cons, hpx, Bool.false_eq_true, if_neg]
      exact ih
    · rw [updateFirst, if_pos hpx]
      simp only [List.filter_cons, hpx, hf x hpx, if_pos, List.length_cons]

theorem updateFirst_map {α β : Type} {p : α → Bool} {f : α → α} (g : α → β)
    (hg : ∀ a, g (f a) = g a) :
    ∀ l : List α, (updateFirst p f l).map g = l.map g := by
  intro l
  induction l with
  | nil => rfl
  | cons x xs ih =>
    cases hpx : p x
    · rw [updateFirst, if_neg (by simp [hpx])]
      simp [ih]
    · rw [updateFirst, if_pos hpx]
      simp [hg]

/-- `add_club_member` from `db_operations.py`: with an existing row for the
(club, user) pair, raise its `member_privilege` to the requested value when
strictly higher (mutating the fetched row and committing), else leave it;
with no row, insert `ClubMembership(user_id, club_id, member_privilege)`. -/
def add_club_member (db : DB) (club_id user_id : Nat) (member_privilege : Nat) : DB :=
  match db.memberships.find? (fun m => m.club_id == club_id && m.user_id == user_id) with
  | some curr_membership =>
    if member_privilege > curr_membership.member_privilege then
      { db with memberships :=
          (updateFirst (fun m => m.club_id == club_id && m.user_id == user_id)
            (fun m => { m with member_privilege := member_privilege }) db.memberships) }
    else db
  | none =>
    { db with memberships :=
        db.memberships ++ [⟨user_id, club_id, member_privilege⟩] }

/-- C5: `add_club_member` keeps the (user, club) membership row unique and
sets its privilege to the maximum of the current and requested values (never
lowering it); with no prior row it creates one with the requested value. -/
theorem add_club_member_monotone (db : DB) (club_id user_id priv : Nat)
    (huniq : (db.memberships.filter
        (fun m => m.club_id == club_id && m.user_id == user_id)).length ≤ 1) :
    ((add_club_member db club_id user_id priv).memberships.filter
        (fun m => m.club_id == club_id && m.user_id == user_id)).length = 1 ∧
    ((add_club_member db club_id user_id priv).memberships.find?
        (fun m => m.club_id == club_id && m.user_id == user_id)).map
      (fun m => m.member_privilege) =
      some (match db.memberships.find?
          (fun m => m.club_id == club_id && m.user_id == user_id) with
        | some curr => max priv curr.member_privilege
        | none => priv) := by
  have hpres : ∀ m : ClubMembership,
      (m.club_id == club_id && m.user_id == user_id) = true →
      (({ m with member_privilege := priv } : ClubMembership).club_id == club_id &&
        ({ m with member_privilege := priv } : ClubMembership).user_id == user_id) = true := by
    intro m hm
    simpa using hm
  cases hf : db.memberships.find? (fun m => m.club_id == club_id && m.user_id == user_id) with
  | some curr =>
    have hcurr_mem : curr ∈ db.memberships := List.mem_of_find?_eq_some hf
    have hcount1 : (db.memberships.filter
        (fun m => m.club_id == club_id && m.user_id == user_id)).length = 1 := by
      have hmem : curr ∈ db.memberships.filter
          (fun m => m.club_id == club_id && m.user_id == user_id) :=
        List.mem_filter.mpr ⟨hcurr_mem, by simpa using List.find?_some hf⟩
      have := List.length_pos_of_mem hmem
      omega
    by_cases hgt : priv > curr.member_privilege
    · have hval : add_club_member db club_id user_id priv =
          { db with memberships :=
              (updateFirst (fun m => m.club_id == club_id && m.user_id == user_id)
                (fun m => { m with member_privilege := priv }) db.memberships) } := by
        unfold add_club_member
        simp only [hf]
        rw [if_pos hgt]
      rw [hval]
      constructor
      · rw [updateFirst_filter_length hpres]
        exact hcount1
      · rw [updateFirst_find? hpres, hf]
        simp [Nat.max_eq_left (Nat.le_of_lt hgt)]
    · have hval : add_club_member db club_id user_id priv = db := by
        unfold add_club_member
        simp only [hf]
        rw [if_neg hgt]
      rw [hval]
      refine ⟨hcount1, ?_⟩
      rw [hf]
      simp [Nat.max_eq_right (Nat.le_of_not_lt hgt)]
  | none =>
    have hval : add_club_member db club_id user_id priv =
        { db with memberships :=
            db.memberships ++ [⟨user_id, club_id, priv⟩] } := by
      unfold add_club_member
      simp only [hf]
    rw [hval]
    have hfilter : db.memberships.filter
        (fun m => m.club_id == club_id && m.user_id == user_id) = [] := by
      rw [List.filter_eq_nil_iff]
      exact List.find?_eq_none.mp hf
    have hfind2 : (db.memberships ++ [(⟨user_id, club_id, priv⟩ : ClubMembership)]).find?
        (fun m => m.club_id == club_id && m.user_id == user_id) =
        some ⟨user_id, club_id, priv⟩ := by
      rw [find?_append_of_none hf]
      simp [List.find?]
    constructor
    · rw [List.filter_append, hfilter]
      simp
    · rw [hfind2]
      rfl

/-- Witness for `add_club_member_monotone`: requesting MEMBER for an existing
OFFICER leaves the privilege at OFFICER. -/
theorem add_club_member_monotone_witness :
    ((⟨[], [], [⟨7, 3, 1⟩], [], 1⟩ : DB).memberships.filter
        (fun m => m.club_id == 3 && m.user_id == 7)).length ≤ 1 ∧
    ((add_club_member ⟨[], [], [⟨7, 3, 1⟩], [], 1⟩ 3 7 0).memberships.filter
        (fun m => m.club_id == 3 && m.user_id == 7)).length = 1 ∧
    ((add_club_member ⟨[], [], [⟨7, 3, 1⟩], [], 1⟩ 3 7 0).memberships.find?
        (fun m => m.club_id == 3 && m.user_id == 7)).map
      (fun m => m.member_privilege) = some 1 :=
  ⟨by simp,
   (add_club_member_monotone ⟨[], [], [⟨7, 3, 1⟩], [], 1⟩ 3 7 0 (by simp)).1,
   (add_club_member_monotone ⟨[], [], [⟨7, 3, 1⟩], [], 1⟩ 3 7 0 (by simp)).2⟩

/-! ### Update operations

The `try/except` blocks of the update functions are driven by a `fails`
oracle: `fails = true` means the store raises during the mutation/commit, the
`except` branch runs (`session.rollback()`, restoring the committed state)
and the function reports `False`; `fails = false` means the mutation commits. -/

/-- `update_event_description` from `db_operations.py`: fetch the event by id
(absent → `False`), then update only the two description fields, committing on
success and rolling back on a store failure. -/
def update_event_description (db : DB) (fails : Bool) (event_id : Nat)
    (description : String) (description_html : Option String) : Bool × DB :=
  match db.events.find? (fun e => e.id == event_id) with
  | none => (false, db)
  | some _ =>
    if fails then (false, db)
    else
      (true,
        { db with events :=
            (updateFirst (fun e => e.id == event_id)
              (fun e => { e with
                            description := description,
                            description_html := description_html }) db.events) })

/-- C7: `update_event_description` returns false and modifies nothing when the
event is absent; when it exists, a store failure during the update is caught,
rolled back and reported as `false` (no exception, no retry); otherwise the
two description fields are updated, committed, and `true` is returned. -/
theorem update_event_description_spec (db : DB) (fails : Bool) (event_id : Nat)
    (description : String) (description_html : Option String)
    (hids : db.events.Pairwise (fun a b => a.id ≠ b.id)) :
    ((∀ e ∈ db.events, e.id ≠ event_id) →
      update_event_description db fails event_id description description_html =
        (false, db)) ∧
    ((∃ e ∈ db.events, e.id = event_id) → fails = true →
      update_event_description db fails event_id description description_html =
        (false, db)) ∧
    ((∃ e ∈ db.events, e.id = event_id) → fails = false →
      (update_event_description db fails event_id description description_html).1 = true ∧
      ∀ e ∈ db.events, e.id = event_id →
        (update_event_description db fails event_id description
            description_html).2.events.find? (fun x => x.id == event_id) =
          some { e with
                   description := description,
                   description_html := description_html }) := by
  have hpres : ∀ e : Event, (e.id == event_id) = true →
      (({ e with description := description,
                 description_html := description_html } : Event).id == event_id) = true := by
    intro e he
    simpa using he
  cases hf : db.events.find? (fun e => e.id == event_id) with
  | none =>
    have habs : ∀ e ∈ db.events, e.id ≠ event_id := by
      intro e he hid
      have := List.find?_eq_none.mp hf e he
      simp [hid] at this
    have hval : update_event_description db fails event_id description description_html =
        (false, db) := by
      unfold update_event_description
      simp only [hf]
    refine ⟨fun _ => hval, ?_, ?_⟩
    · rintro ⟨e, he, hid⟩ _
      exact absurd hid (habs e he)
    · rintro ⟨e, he, hid⟩ _
      exact absurd hid (habs e he)
  | some ev =>
    have hev_mem : ev ∈ db.events := List.mem_of_find?_eq_some hf
    have hev_id : ev.id = event_id := by simpa using List.find?_some hf
    refine ⟨?_, ?_, ?_⟩
    · intro habs
      exact absurd hev_id (habs ev hev_mem)
    · rintro - rfl
      unfold update_event_description
      simp only [hf]
      simp
    · rintro - rfl
      have hval : update_event_description db false event_id description description_html =
          (true,
            { db with events :=
                (updateFirst (fun e => e.id == event_id)
                  (fun e => { e with
                                description := description,
                                description_html := description_html }) db.events) }) := by
        unfold update_event_description
        simp only [hf]
        rw [if_neg (by simp)]
      rw [hval]
      refine ⟨rfl, ?_⟩
      intro e he hid
      have hee : e = ev := by
        have := find?_eq_some_of_pairwise (pairwise_beq_key (fun a => a.id) hids event_id)
          he (by simpa using hid)
        rw [hf] at this
        exact (Option.some.inj this).symm
      subst hee
      show (updateFirst (fun e => e.id == event_id)
          (fun e => { e with
                        description := description,
                        description_html := description_html }) db.events).find?
        (fun x => x.id == event_id) = _
      rw [updateFirst_find? hpres, hf]
      rfl

/-- Witness for `update_event_description_spec`: a present event, no store
failure; the stored row afterwards carries the new description fields. -/
theorem update_event_description_spec_witness :
    List.Pairwise (fun a b => a.id ≠ b.id)
      [(⟨1, "t", 2, "d", some "h", none, none, none, none, none, none, none⟩ : Event)] ∧
    ((⟨1, "t", 2, "d", some "h", none, none, none, none, none, none, none⟩ : Event) ∈
      [(⟨1, "t", 2, "d", some "h", none, none, none, none, none, none, none⟩ : Event)] ∧
      (⟨1, "t", 2, "d", some "h", none, none, none, none, none, none, none⟩ : Event).id = 1) ∧
    (update_event_description
        ⟨[], [⟨1, "t", 2, "d", some "h", none, none, none, none, none, none, none⟩],
          [], [], 1⟩ false 1 "d2" none).1 = true ∧
    (update_event_description
        ⟨[], [⟨1, "t", 2, "d", some "h", none, none, none, none, none, none, none⟩],
          [], [], 1⟩ false 1 "d2" none).2.events.find? (fun x => x.id == 1) =
      some ⟨1, "t", 2, "d2", none, none, none, none, none, none, none, none⟩ :=
  ⟨by simp, ⟨by simp, rfl⟩,
   ((update_event_description_spec
        ⟨[], [⟨1, "t", 2, "d", some "h", none, none, none, none, none, none, none⟩],
          [], [], 1⟩ false 1 "d2" none (by simp)).2.2
      ⟨⟨1, "t", 2, "d", some "h", none, none, none, none, none, none, none⟩, by simp, rfl⟩
      rfl).1,
   ((update_event_description_spec
        ⟨[], [⟨1, "t", 2, "d", some "h", none, none, none, none, none, none, none⟩],
          [], [], 1⟩ false 1 "d2" none (by simp)).2.2
      ⟨⟨1, "t", 2, "d", some "h", none, none, none, none, none, none, none⟩, by simp, rfl⟩
      rfl).2
     ⟨1, "t", 2, "d", some "h", none, none, none, none, none, none, none⟩ (by simp) rfl⟩

/-- `update_event` from `db_operations.py`: fetch the event by id (absent →
`False`); overwrite title, description and every optional field it covers
(`description_html`, `location`, `start_date`, `end_date`, `start_time`,
`end_time`, `cta_link`) with the argument values, rolling back on a store
failure; then, exactly when `event_tags` is truthy (a non-`None`, non-empty
list), replace the tag set.  A `club_id` argument is accepted but never
assigned, and `user_id` is not a parameter at all. -/
def update_event (db : DB) (fails : Bool) (event_id : Nat)
    (title description : String) (event_tags : Option (List Nat))
    (start_date end_date : Option Date) (start_time end_time : Option Nat)
    (description_html : Option String) (club_id : Option Nat)
    (location cta_link : Option String) : Bool × DB :=
  match db.events.find? (fun e => e.id == event_id) with
  | none => (false, db)
  | some _ =>
    let db1 :=
      if fails then db
      else
        { db with events :=
            (updateFirst (fun e => e.id == event_id)
              (fun e => { e with
                            title := title,
                            description := description,
                            description_html := description_html,
                            location := location,
                            start_date := start_date,
                            end_date := end_date,
                            start_time := start_time,
                            end_time := end_time,
                            cta_link := cta_link }) db.events) }
    let db2 :=
      match event_tags with
      | none => db1
      | some tags => if tags.isEmpty then db1 else add_event_tags db1 event_id tags
    (!fails, db2)

/-- C9: `update_event` leaves every stored event's `user_id` and `club_id`
unchanged, whatever arguments (including `club_id`) it is called with. -/
theorem update_event_preserves_ownership (db : DB) (fails : Bool) (event_id : Nat)
    (title description : String) (event_tags : Option (List Nat))
    (start_date end_date : Option Date) (start_time end_time : Option Nat)
    (description_html : Option String) (club_id : Option Nat)
    (location cta_link : Option String) :
    (update_event db fails event_id title description event_tags start_date end_date
        start_time end_time description_html club_id location cta_link).2.events.map
      (fun e => (e.user_id, e.club_id)) =
      db.events.map (fun e => (e.user_id, e.club_id)) := by
  have hup : (updateFirst (fun e => e.id == event_id)
      (fun e => { e with
                    title := title,
                    description := description,
                    description_html := description_html,
                    location := location,
                    start_date := start_date,
                    end_date := end_date,
                    start_time := start_time,
                    end_time := end_time,
                    cta_link := cta_link }) db.events).map
      (fun e => (e.user_id, e.club_id)) =
      db.events.map (fun e => (e.user_id, e.club_id)) :=
    updateFirst_map
      (f := fun e => { e with
                         title := title,
                         description := description,
                         description_html := description_html,
                         location := location,
                         start_date := start_date,
                         end_date := end_date,
                         start_time := start_time,
                         end_time := end_time,
                         cta_link := cta_link })
      (fun e => (e.user_id, e.club_id)) (fun a => rfl) db.events
  unfold update_event
  cases hf : db.events.find? (fun e => e.id == event_id) with
  | none => rfl
  | some ev =>
    cases fails with
    | true =>
      cases event_tags with
      | none => simp
      | some tags =>
        cases htags : tags.isEmpty with
        | true => simp [htags]
        | false => simp [htags, add_event_tags]
    | false =>
      cases event_tags with
      | none => simp [hup]
      | some tags =>
        cases htags : tags.isEmpty with
        | true => simp [htags, hup]
        | false => simp [htags, add_event_tags, hup]

/-- C10: `update_event` is a full overwrite of the optional fields it covers:
with a present event, no store failure, and every optional argument omitted
(Python default `None`), the stored event's `description_html`, `location`,
`start_date`, `end_date`, `start_time`, `end_time` and `cta_link` all become
`None`, clearing any previously stored values. -/
theorem update_event_clears_omitted (db : DB) (event_id : Nat)
    (title description : String)
    (hids : db.events.Pairwise (fun a b => a.id ≠ b.id))
    (hex : ∃ e ∈ db.events, e.id = event_id) :
    (update_event db false event_id title description none none none none none none
        none none none).1 = true ∧
    ∀ e ∈ db.events, e.id = event_id →
      (update_event db false event_id title description none none none none none none
          none none none).2.events.find? (fun x => x.id == event_id) =
        some { e with
                 title := title,
                 description := description,
                 description_html := none,
                 location := none,
                 start_date := none,
                 end_date := none,
                 start_time := none,
                 end_time := none,
                 cta_link := none } := by
  have hpres : ∀ e : Event, (e.id == event_id) = true →
      (({ e with
            title := title,
            description := description,
            description_html := none,
            location := none,
            start_date := none,
            end_date := none,
            start_time := none,
            end_time := none,
            cta_link := none } : Event).id == event_id) = true := by
    intro e he
    simpa using he
  obtain ⟨e0, he0, hid0⟩ := hex
  have hf : db.events.find? (fun e => e.id == event_id) = some e0 :=
    find?_eq_some_of_pairwise (pairwise_beq_key (fun a => a.id) hids event_id)
      he0 (by simpa using hid0)
  have hval : update_event db false event_id title description none none none none none
      none none none none =
      (true,
        { db with events :=
            (updateFirst (fun e => e.id == event_id)
              (fun e => { e with
                            title := title,
                            description := description,
                            description_html := none,
                            location := none,
                            start_date := none,
                            end_date := none,
                            start_time := none,
                            end_time := none,
                            cta_link := none }) db.events) }) := by
    unfold update_event
    simp only [hf]
    simp
  rw [hval]
  refine ⟨rfl, ?_⟩
  intro e he hid
  have hee : e = e0 := by
    have := find?_eq_some_of_pairwise (pairwise_beq_key (fun a => a.id) hids event_id)
      he (by simpa using hid)
    rw [hf] at this
    exact (Option.some.inj this).symm
  subst hee
  show (updateFirst (fun e => e.id == event_id)
      (fun e => { e with
                    title := title,
                    description := description,
                    description_html := none,
                    location := none,
                    start_date := none,
                    end_date := none,
                    start_time := none,
                    end_time := none,
                    cta_link := none }) db.events).find?
    (fun x => x.id == event_id) = _
  rw [updateFirst_find? hpres, hf]
  rfl

/-- Witness for `update_event_clears_omitted`: an event with every optional
field populated; updating only title and description clears them all (while
`user_id` and `club_id` survive). -/
theorem update_event_clears_omitted_witness :
    List.Pairwise (fun a b => a.id ≠ b.id)
      [(⟨1, "t", 2, "d", some "h", some 3, some "loc", some ⟨2024, 2, 29⟩,
          some ⟨2024, 3, 1⟩, some 60, some 120, some "x"⟩ : Event)] ∧
    ((⟨1, "t", 2, "d", some "h", some 3, some "loc", some ⟨2024, 2, 29⟩,
        some ⟨2024, 3, 1⟩, some 60, some 120, some "x"⟩ : Event) ∈
      [(⟨1, "t", 2, "d", some "h", some 3, some "loc", some ⟨2024, 2, 29⟩,
          some ⟨2024, 3, 1⟩, some 60, some 120, some "x"⟩ : Event)] ∧
      (⟨1, "t", 2, "d", some "h", some 3, some "loc", some ⟨2024, 2, 29⟩,
          some ⟨2024, 3, 1⟩, some 60, some 120, some "x"⟩ : Event).id = 1) ∧
    (update_event
        ⟨[], [⟨1, "t", 2, "d", some "h", some 3, some "loc", some ⟨2024, 2, 29⟩,
            some ⟨2024, 3, 1⟩, some 60, some 120, some "x"⟩], [], [], 1⟩
        false 1 "t2" "d2" none none none none none none none none none).1 = true ∧
    (update_event
        ⟨[], [⟨1, "t", 2, "d", some "h", some 3, some "loc", some ⟨2024, 2, 29⟩,
            some ⟨2024, 3, 1⟩, some 60, some 120, some "x"⟩], [], [], 1⟩
        false 1 "t2" "d2" none none none none none none none none
        none).2.events.find? (fun x => x.id == 1) =
      some ⟨1, "t2", 2, "d2", none, some 3, none, none, none, none, none, none⟩ :=
  ⟨by simp, ⟨by simp, rfl⟩,
   (update_event_clears_omitted
      ⟨[], [⟨1, "t", 2, "d", some "h", some 3, some "loc", some ⟨2024, 2, 29⟩,
          some ⟨2024, 3, 1⟩, some 60, some 120, some "x"⟩], [], [], 1⟩
      1 "t2" "d2" (by simp)
      ⟨⟨1, "t", 2, "d", some "h", some 3, some "loc", some ⟨2024, 2, 29⟩,
          some ⟨2024, 3, 1⟩, some 60, some 120, some "x"⟩, by simp, rfl⟩).1,
   (update_event_clears_omitted
      ⟨[], [⟨1, "t", 2, "d", some "h", some 3, some "loc", some ⟨2024, 2, 29⟩,
          some ⟨2024, 3, 1⟩, some 60, some 120, some "x"⟩], [], [], 1⟩
      1 "t2" "d2" (by simp)
      ⟨⟨1, "t", 2, "d", some "h", some 3, some "loc", some ⟨2024, 2, 29⟩,
          some ⟨2024, 3, 1⟩, some 60, some 120, some "x"⟩, by simp, rfl⟩).2
     ⟨1, "t", 2, "d", some "h", some 3, some "loc", some ⟨2024, 2, 29⟩,
         some ⟨2024, 3, 1⟩, some 60, some 120, some "x"⟩ (by simp) rfl⟩

/-! ### Month queries -/

/-- Leap-year test, as in Python's `calendar.isleap`. -/
def isleap (year : Nat) : Bool :=
  year % 4 == 0 && (year % 100 != 0 || year % 400 == 0)

/-- Day counts per month (index 0 unused), as in Python's `calendar.mdays`. -/
def mdays : List Nat := [0, 31, 28, 31, 30, 31, 30, 31, 31, 30, 31, 30, 31]

/-- Number of days of the month, as computed by `calendar.monthrange`. -/
def monthrange_days (year month : Nat) : Nat :=
  mdays.getD month 0 + (if month == 2 && isleap year then 1 else 0)

/-- Chronological comparison of calendar dates (lexicographic on year, month,
day), the order the store uses for `BETWEEN` on date columns. -/
def Date.le (a b : Date) : Bool :=
  Nat.blt a.year b.year ||
    (a.year == b.year &&
      (Nat.blt a.month b.month || (a.month == b.month && Nat.ble a.day b.day)))

/-- Sort key for optional dates: NULLs first (ascending order), then
chronological for calendar dates (month ≤ 12 and day ≤ 31). -/
def dateKey : Option Date → Nat
  | none => 0
  | some d => 1 + (d.year * 512 + d.month * 32 + d.day)

/-- Sort key for optional times: NULLs first, then by time. -/
def timeKey : Option Nat → Nat
  | none => 0
  | some t => t + 1

/-- The `order_by(Event.start_date, Event.start_time, Event.title)` ordering:
lexicographic on start date, then start time (NULLs first), then title. -/
def eventLe (a b : Event) : Prop :=
  dateKey a.start_date < dateKey b.start_date ∨
    (dateKey a.start_date = dateKey b.start_date ∧
      (timeKey a.start_time < timeKey b.start_time ∨
        (timeKey a.start_time = timeKey b.start_time ∧ a.title ≤ b.title)))

instance : DecidableRel eventLe := fun a b => by
  unfold eventLe
  infer_instance

instance : IsTotal Event eventLe := ⟨by
  intro a b
  unfold eventLe
  rcases Nat.lt_trichotomy (dateKey a.start_date) (dateKey b.start_date) with h | h | h
  · exact Or.inl (Or.inl h)
  · rcases Nat.lt_trichotomy (timeKey a.start_time) (timeKey b.start_time) with h2 | h2 | h2
    · exact Or.inl (Or.inr ⟨h, Or.inl h2⟩)
    · rcases le_total a.title b.title with h3 | h3
      · exact Or.inl (Or.inr ⟨h, Or.inr ⟨h2, h3⟩⟩)
      · exact Or.inr (Or.inr ⟨h.symm, Or.inr ⟨h2.symm, h3⟩⟩)
    · exact Or.inr (Or.inr ⟨h.symm, Or.inl h2⟩)
  · exact Or.inr (Or.inl h)⟩

instance : IsTrans Event eventLe := ⟨by
  intro a b c hab hbc
  unfold eventLe at *
  rcases hab with h1 | ⟨h1, h1'⟩ <;> rcases hbc with h2 | ⟨h2, h2'⟩
  · exact Or.inl (by omega)
  · exact Or.inl (by omega)
  · exact Or.inl (by omega)
  · refine Or.inr ⟨by omega, ?_⟩
    rcases h1' with t1 | ⟨t1, s1⟩ <;> rcases h2' with t2 | ⟨t2, s2⟩
    · exact Or.inl (by omega)
    · exact Or.inl (by omega)
    · exact Or.inl (by omega)
    · exact Or.inr ⟨by omega, le_trans s1 s2⟩⟩

/-- The year the query uses: Python's `if not year:` treats `None` (and a
falsy `0`) as "use the current year". -/
def resolveYear (nowYear : Nat) (year : Option Nat) : Nat :=
  match year with
  | none => nowYear
  | some y => if y == 0 then nowYear else y

/-- `get_events_by_month` from `db_operations.py` (callers respect its
`assert 1 <= month <= 12`): the events whose `start_date` lies between the
first and last day of the month — a NULL `start_date` never satisfies
`BETWEEN` — ordered by start date, start time and title.  `nowYear` stands
for `datetime.now().year`. -/
def get_events_by_month (db : DB) (nowYear month : Nat) (year : Option Nat) : List Event :=
  let y := resolveYear nowYear year
  let last_day_of_month := monthrange_days y month
  let from_date : Date := ⟨y, month, 1⟩
  let to_date : Date := ⟨y, month, last_day_of_month⟩
  List.insertionSort eventLe
    (db.events.filter (fun e =>
      match e.start_date with
      | none => false
      | some d => Date.le from_date d && Date.le d to_date))

/-- C6: for any month 1..12, `get_events_by_month` returns exactly the events
whose `start_date` lies between the first and last calendar day of the month
(leap-year aware through `monthrange_days`), sorted by start date, start time
and title; with the year omitted (`none`) the current year is used. -/
theorem get_events_by_month_spec (db : DB) (nowYear month : Nat) (year : Option Nat)
    (hm : 1 ≤ month ∧ month ≤ 12) :
    (∀ e, e ∈ get_events_by_month db nowYear month year ↔
      e ∈ db.events ∧ ∃ d, e.start_date = some d ∧
        Date.le ⟨resolveYear nowYear year, month, 1⟩ d = true ∧
        Date.le d ⟨resolveYear nowYear year, month,
          monthrange_days (resolveYear nowYear year) month⟩ = true) ∧
    (get_events_by_month db nowYear month year).Sorted eventLe ∧
    get_events_by_month db nowYear month none =
      get_events_by_month db nowYear month (some nowYear) := by
  refine ⟨?_, ?_, ?_⟩
  · intro e
    simp only [get_events_by_month]
    rw [List.mem_insertionSort, List.mem_filter]
    constructor
    · rintro ⟨hmem, hp⟩
      refine ⟨hmem, ?_⟩
      cases hd : e.start_date with
      | none =>
        rw [hd] at hp
        simp at hp
      | some d =>
        rw [hd] at hp
        simp only [Bool.and_eq_true] at hp
        exact ⟨d, rfl, hp⟩
    · rintro ⟨hmem, d, hd, h1, h2⟩
      refine ⟨hmem, ?_⟩
      rw [hd]
      simp [h1, h2]
  · exact List.sorted_insertionSort eventLe _
  · simp [get_events_by_month, resolveYear]

/-- Witness for `get_events_by_month_spec`: February 2024 is leap-aware —
an event on 2024-02-29 is reported as belonging to the month. -/
theorem get_events_by_month_spec_witness :
    (1 ≤ 2 ∧ 2 ≤ 12) ∧
    ((⟨1, "t", 2, "d", none, none, none, some ⟨2024, 2, 29⟩, none, none, none,
        none⟩ : Event) ∈
      get_events_by_month
        ⟨[], [⟨1, "t", 2, "d", none, none, none, some ⟨2024, 2, 29⟩, none, none,
            none, none⟩], [], [], 1⟩ 2025 2 (some 2024) ↔
      ((⟨1, "t", 2, "d", none, none, none, some ⟨2024, 2, 29⟩, none, none, none,
          none⟩ : Event) ∈
        [(⟨1, "t", 2, "d", none, none, none, some ⟨2024, 2, 29⟩, none, none, none,
            none⟩ : Event)] ∧
        ∃ d, (⟨1, "t", 2, "d", none, none, none, some ⟨2024, 2, 29⟩, none, none,
            none, none⟩ : Event).start_date = some d ∧
          Date.le ⟨2024, 2, 1⟩ d = true ∧
          Date.le d ⟨2024, 2, 29⟩ = true)) ∧
    (get_events_by_month
        ⟨[], [⟨1, "t", 2, "d", none, none, none, some ⟨2024, 2, 29⟩, none, none,
            none, none⟩], [], [], 1⟩ 2025 2 (some 2024)).Sorted eventLe ∧
    get_events_by_month
        ⟨[], [⟨1, "t", 2, "d", none, none, none, some ⟨2024, 2, 29⟩, none, none,
            none, none⟩], [], [], 1⟩ 2025 2 none =
      get_events_by_month
        ⟨[], [⟨1, "t", 2, "d", none, none, none, some ⟨2024, 2, 29⟩, none, none,
            none, none⟩], [], [], 1⟩ 2025 2 (some 2025) :=
  ⟨by decide,
   (get_events_by_month_spec
      ⟨[], [⟨1, "t", 2, "d", none, none, none, some ⟨2024, 2, 29⟩, none, none,
          none, none⟩], [], [], 1⟩ 2025 2 (some 2024) (by decide)).1
     ⟨1, "t", 2, "d", none, none, none, some ⟨2024, 2, 29⟩, none, none, none, none⟩,
   (get_events_by_month_spec
      ⟨[], [⟨1, "t", 2, "d", none, none, none, some ⟨2024, 2, 29⟩, none, none,
          none, none⟩], [], [], 1⟩ 2025 2 (some 2024) (by decide)).2.1,
   (get_events_by_month_spec
      ⟨[], [⟨1, "t", 2, "d", none, none, none, some ⟨2024, 2, 29⟩, none, none,
          none, none⟩], [], [], 1⟩ 2025 2 none (by decide)).2.2⟩
